/-
Verification of the project-context lifecycle in
src/cpp/session/projects/SessionProjectContext.cpp.

The development shallowly embeds the functions of the file over an abstract
filesystem model.  Paths are component lists (FilePath::complete appends a
component, FilePath::parent drops the last one, FilePath::isWithin is the
list-prefix relation on components).  External collaborators — the settings
store, UUID generation, directory creation, the project-file codec and the
R encoding-normalization callback — are oracles carried in an `Env` record,
matching how the spec treats them: as interfaces only.  Filesystem
effects are tracked explicitly: each operation returns the updated
filesystem together with a trace of the actions it performed and the list
of errors it logged (LOG_ERROR calls).
-/
import Mathlib

/-- A filesystem path, as its list of components (FilePath model). -/
abbrev FPath := List String

/-- FilePath::isWithin — `dir` equals `base` or is nested beneath it. -/
def pathIsWithin (dir base : FPath) : Bool :=
  base.isPrefixOf dir

/-- The error values flowing through this file: pathNotFoundError,
systemError(permission_denied), and opaque errors produced by the external
collaborators (directory creation, file codec, R call). -/
inductive Err where
  | pathNotFound (p : FPath)
  | permissionDenied
  | ioErr (s : String)
deriving DecidableEq

/-- Error::summary, used to build the scratch-path user error message. -/
def Err.summary : Err → String
  | .pathNotFound _ => "path not found"
  | .permissionDenied => "permission denied"
  | .ioErr s => s

/-- r_util::RProjectConfig — the fields this file reads. -/
structure RProjectConfig where
  useSpacesForTab : Bool
  numSpacesForTab : Nat
  encoding : String
deriving DecidableEq

/-- The filesystem state: the set of existing regular files and of existing
directories, as lists of paths. -/
structure Fs where
  files : List FPath
  dirs : List FPath
deriving DecidableEq

/-- The filesystem actions a run can perform, recorded as a trace. -/
inductive FsAction where
  | probeWrite (p : FPath)
  | probeRemove (p : FPath)
  | ensureDir (p : FPath)
  | makeHidden (p : FPath)
  | readProject (p : FPath)
  | writeProject (p : FPath)
deriving DecidableEq

/-- The environment of external collaborators: platform flag, the UUID that
core::system::generateUuid returns, core::system::username,
userSettings().contextId(), and failure oracles for each fallible external
operation.  `readProjectResult` models r_util::readProjectFile (config plus
the provided-defaults flag, or an error with the user message it writes);
`writeProjectResult` models r_util::writeProjectFile. -/
structure Env where
  win32 : Bool
  uuid : String
  username : String
  contextId : String
  writeResult : FPath → Option Err
  removeResult : FPath → Option Err
  createDirResult : FPath → Option Err
  makeFileHiddenResult : FPath → Option Err
  readProjectResult : FPath → Except (Err × String) (RProjectConfig × Bool)
  writeProjectResult : FPath → Option Err

/-- core::writeStringToFile — on success the file exists afterwards. -/
def writeStringToFile (env : Env) (fs : Fs) (p : FPath) : Option Err × Fs :=
  match env.writeResult p with
  | some e => (some e, fs)
  | none =>
    (none, { fs with files := if p ∈ fs.files then fs.files else p :: fs.files })

/-- FilePath::removeIfExists — on success the file is gone; on failure the
filesystem is unchanged. -/
def removeIfExists (env : Env) (fs : Fs) (p : FPath) : Option Err × Fs :=
  match env.removeResult p with
  | some e => (some e, fs)
  | none => (none, { fs with files := fs.files.filter (· ≠ p) })

/-- canWriteToProjectDir (SessionProjectContext.cpp lines 37-53): write a
uniquely named probe file; a write failure means not writable; on write
success the probe file is removed, a removal failure being logged only.
Returns (answer, filesystem, trace, logged errors). -/
def canWriteToProjectDir (env : Env) (fs : Fs) (projectDirPath : FPath) :
    Bool × Fs × List FsAction × List Err :=
  let testFile := projectDirPath ++ [env.uuid]
  match writeStringToFile env fs testFile with
  | (some _, fs1) => (false, fs1, [.probeWrite testFile], [])
  | (none, fs1) =>
    match removeIfExists env fs1 testFile with
    | (some e, fs2) => (true, fs2, [.probeWrite testFile, .probeRemove testFile], [e])
    | (none, fs2) => (true, fs2, [.probeWrite testFile, .probeRemove testFile], [])

/-- FilePath::ensureDirectory — succeeds without change when the directory
exists, otherwise creates it (subject to the failure oracle of the environment). -/
def ensureDirectory (env : Env) (fs : Fs) (p : FPath) : Option Err × Fs :=
  if p ∈ fs.dirs then (none, fs)
  else
    match env.createDirResult p with
    | some e => (some e, fs)
    | none => (none, { fs with dirs := p :: fs.dirs })

/-- First stage of computeScratchPath (SessionProjectContext.cpp lines
60-75): if the `.Rproj.user` sibling directory is absent, create it and,
on win32, mark it hidden. -/
def ensureProjectUserDir (env : Env) (fs : Fs) (projectUserDir : FPath) :
    Option Err × Fs × List FsAction :=
  if projectUserDir ∈ fs.dirs then (none, fs, [])
  else
    match ensureDirectory env fs projectUserDir with
    | (some e, fs1) => (some e, fs1, [.ensureDir projectUserDir])
    | (none, fs1) =>
      if env.win32 then
        match env.makeFileHiddenResult projectUserDir with
        | some e => (some e, fs1, [.ensureDir projectUserDir, .makeHidden projectUserDir])
        | none => (none, fs1, [.ensureDir projectUserDir, .makeHidden projectUserDir])
      else (none, fs1, [.ensureDir projectUserDir])

/-- Second stage of computeScratchPath (lines 77-85): descend into a
per-user subdirectory when the OS username is non-empty, creating it if
absent; with an empty username this level is skipped.  Returns the
directory the next stage starts from. -/
def ensureUserLevel (env : Env) (fs : Fs) (projectUserDir : FPath) :
    FPath × Option Err × Fs × List FsAction :=
  if env.username = "" then (projectUserDir, none, fs, [])
  else
    let userDir := projectUserDir ++ [env.username]
    match ensureDirectory env fs userDir with
    | (r, fs1) => (userDir, r, fs1, [.ensureDir userDir])

/-- Third stage of computeScratchPath (lines 87-91): descend into the
settings context-id subdirectory, creating it if absent. -/
def ensureContextLevel (env : Env) (fs : Fs) (userDir : FPath) :
    Except Err FPath × Fs × List FsAction :=
  let scratchPath := userDir ++ [env.contextId]
  match ensureDirectory env fs scratchPath with
  | (some e, fs1) => (.error e, fs1, [.ensureDir scratchPath])
  | (none, fs1) => (.ok scratchPath, fs1, [.ensureDir scratchPath])

/-- computeScratchPath (SessionProjectContext.cpp lines 58-96): ensure the
hidden `.Rproj.user` sibling of the project file, then a per-user level
when the username is non-empty, then the settings context-id level; any
creation failure aborts with that error. -/
def computeScratchPath (env : Env) (fs : Fs) (projectFile : FPath) :
    Except Err FPath × Fs × List FsAction :=
  let projectUserDir := projectFile.dropLast ++ [".Rproj.user"]
  match ensureProjectUserDir env fs projectUserDir with
  | (some e, fs1, tr1) => (.error e, fs1, tr1)
  | (none, fs1, tr1) =>
    match ensureUserLevel env fs1 projectUserDir with
    | (_, some e, fs2, tr2) => (.error e, fs2, tr1 ++ tr2)
    | (userDir, none, fs2, tr2) =>
      match ensureContextLevel env fs2 userDir with
      | (r, fs3, tr3) => (r, fs3, tr1 ++ tr2 ++ tr3)

/-- The ProjectContext member state this file mutates.  C++ members are
value types, default-constructed before startup runs: empty paths, a
default config, monitor flag false, empty encoding. -/
structure ProjectContext where
  file_ : FPath
  directory_ : FPath
  scratchPath_ : FPath
  config_ : RProjectConfig
  hasFileMonitor_ : Bool
  defaultEncoding_ : String
deriving DecidableEq

/-- A freshly constructed context (before startup). -/
def ProjectContext.empty : ProjectContext :=
  { file_ := [], directory_ := [], scratchPath_ := [], hasFileMonitor_ := false,
    defaultEncoding_ := "",
    config_ := { useSpacesForTab := true, numSpacesForTab := 2, encoding := "UTF-8" } }

/-- Modelled from the spec: the `hasProject` accessor is declared in the
header SessionProjects.hpp, which is not part of this fragment; per the
spec a project is active exactly when startup has populated the identity,
i.e. when the project file path is non-empty. -/
def ProjectContext.hasProject (ctx : ProjectContext) : Bool :=
  !ctx.file_.isEmpty

/-- Modelled from the spec: the `hasFileMonitor` accessor is declared in
the header SessionProjects.hpp, which is not part of this fragment; per
the spec it reports the monitor flag. -/
def ProjectContext.hasFileMonitor (ctx : ProjectContext) : Bool :=
  ctx.hasFileMonitor_

deriving instance DecidableEq for Except

/-- The outcome of ProjectContext::startup: the Error return value, the
*pUserErrMsg out-parameter (set only on failure), the context and
filesystem afterwards, the trace of filesystem actions, and the errors
passed to LOG_ERROR. -/
structure StartupOut where
  result : Except Err Unit
  userErrMsg : Option String
  ctx : ProjectContext
  fs : Fs
  trace : List FsAction
  log : List Err
deriving DecidableEq

/-- ProjectContext::startup (SessionProjectContext.cpp lines 104-165):
check the project file exists, probe the parent directory for
writability, compute the scratch path, read the project config (rewriting
the file when defaults were provided, a rewrite failure being logged
only), then assign all members together and set the monitor flag
optimistically true. -/
def ProjectContext.startup (ctx : ProjectContext) (env : Env) (fs : Fs)
    (projectFile : FPath) : StartupOut :=
  if projectFile ∈ fs.files then
    match canWriteToProjectDir env fs projectFile.dropLast with
    | (false, fs1, tr1, log1) =>
      { result := .error .permissionDenied,
        userErrMsg := some "the project directory is not writeable",
        ctx := ctx, fs := fs1, trace := tr1, log := log1 }
    | (true, fs1, tr1, log1) =>
      match computeScratchPath env fs1 projectFile with
      | (.error e, fs2, tr2) =>
        { result := .error e,
          userErrMsg := some ("unable to initialize project - " ++ e.summary),
          ctx := ctx, fs := fs2, trace := tr1 ++ tr2, log := log1 }
      | (.ok scratchPath, fs2, tr2) =>
        match env.readProjectResult projectFile with
        | .error (e, msg) =>
          { result := .error e, userErrMsg := some msg, ctx := ctx, fs := fs2,
            trace := tr1 ++ tr2 ++ [.readProject projectFile], log := log1 }
        | .ok (config, providedDefaults) =>
          let ctx1 : ProjectContext :=
            { ctx with file_ := projectFile, directory_ := projectFile.dropLast,
                       scratchPath_ := scratchPath, config_ := config,
                       hasFileMonitor_ := true }
          if providedDefaults then
            match env.writeProjectResult projectFile with
            | some e =>
              { result := .ok (), userErrMsg := none, ctx := ctx1, fs := fs2,
                trace := tr1 ++ tr2 ++ [.readProject projectFile, .writeProject projectFile],
                log := log1 ++ [e] }
            | none =>
              { result := .ok (), userErrMsg := none, ctx := ctx1, fs := fs2,
                trace := tr1 ++ tr2 ++ [.readProject projectFile, .writeProject projectFile],
                log := log1 }
          else
            { result := .ok (), userErrMsg := none, ctx := ctx1, fs := fs2,
              trace := tr1 ++ tr2 ++ [.readProject projectFile], log := log1 }
  else
    { result := .error (.pathNotFound projectFile),
      userErrMsg := some "the project file does not exist",
      ctx := ctx, fs := fs, trace := [], log := [] }

/-- A warning-bar client event (the json payload built at
SessionProjectContext.cpp lines 186-192). -/
structure ClientEvent where
  severe : Bool
  message : String
deriving DecidableEq

/-- The warning-bar message format of SessionProjectContext.cpp lines
188-190, with the requested encoding spliced in. -/
def encodingWarningMessage (enc : String) : String :=
  "Project text encoding \x27" ++ enc ++ "\x27 not available (using UTF-8). You can specify an alternate text encoding via Project Options."

/-- ProjectContext::initialize (SessionProjectContext.cpp lines 167-202),
taking the R call .rs.validateAndNormalizeEncoding as an oracle.  Returns
(error result, context afterwards, client events enqueued, whether the
deferred-init subscription for the file monitor was made).  When no
project is active it is a no-op; a failing R call returns that error with
nothing else done; an empty normalized encoding falls back to UTF-8 and
enqueues one non-severe warning naming the configured encoding. -/
def ProjectContext.postStartupInit (ctx : ProjectContext)
    (normalizeEncoding : String → Except Err String) :
    Except Err Unit × ProjectContext × List ClientEvent × Bool :=
  if ctx.hasProject then
    match normalizeEncoding ctx.config_.encoding with
    | .error e => (.error e, ctx, [], false)
    | .ok enc =>
      if enc.isEmpty then
        (.ok (), { ctx with defaultEncoding_ := "UTF-8" },
         [{ severe := false, message := encodingWarningMessage ctx.config_.encoding }],
         true)
      else
        (.ok (), { ctx with defaultEncoding_ := enc }, [], true)
  else
    (.ok (), ctx, [], false)

/-- The file-monitor lifecycle callbacks that can reach the context. -/
inductive MonitorEvent where
  | registered
  | registrationError
  | monitoringError
  | filesChanged
  | unregistered
deriving DecidableEq

/-- ProjectContext::fileMonitorRegistered (lines 223-228): state effect. -/
def fileMonitorRegistered (ctx : ProjectContext) : ProjectContext :=
  { ctx with hasFileMonitor_ := true }

/-- ProjectContext::fileMonitorRegistrationError (lines 230-235): the error
is logged and rebroadcast; the state effect clears the monitor flag. -/
def fileMonitorRegistrationError (ctx : ProjectContext) : ProjectContext :=
  { ctx with hasFileMonitor_ := false }

/-- ProjectContext::fileMonitorMonitoringError (lines 237-241): logged and
rebroadcast only, no state change. -/
def fileMonitorMonitoringError (ctx : ProjectContext) : ProjectContext :=
  ctx

/-- ProjectContext::fileMonitorFilesChanged (lines 243-248): events are
rebroadcast, no state change. -/
def fileMonitorFilesChanged (ctx : ProjectContext) : ProjectContext :=
  ctx

/-- ProjectContext::fileMonitorUnregistered (lines 250-254): clears the
monitor flag. -/
def fileMonitorUnregistered (ctx : ProjectContext) : ProjectContext :=
  { ctx with hasFileMonitor_ := false }

/-- Dispatch a monitor lifecycle callback to its handler. -/
def applyMonitorEvent (ctx : ProjectContext) : MonitorEvent → ProjectContext
  | .registered => fileMonitorRegistered ctx
  | .registrationError => fileMonitorRegistrationError ctx
  | .monitoringError => fileMonitorMonitoringError ctx
  | .filesChanged => fileMonitorFilesChanged ctx
  | .unregistered => fileMonitorUnregistered ctx

/-- ProjectContext::isMonitoringDirectory (lines 256-259). -/
def isMonitoringDirectory (ctx : ProjectContext) (dir : FPath) : Bool :=
  ctx.hasProject && ctx.hasFileMonitor && pathIsWithin dir ctx.directory_

/-! ### Concrete example instances (used by the closed example theorems) -/

/-- The example config used by the spec scenario. -/
def cfgW : RProjectConfig :=
  { useSpacesForTab := true, numSpacesForTab := 2, encoding := "latin1" }

/-- An environment in which every external operation succeeds: user
`alice`, context id `ctx1`, non-win32, and a project-file codec that
returns `cfgW` without providing defaults. -/
def envA : Env where
  win32 := false
  uuid := "u1"
  username := "alice"
  contextId := "ctx1"
  writeResult := fun _ => none
  removeResult := fun _ => none
  createDirResult := fun _ => none
  makeFileHiddenResult := fun _ => none
  readProjectResult := fun _ => .ok (cfgW, false)
  writeProjectResult := fun _ => none

/-- The same environment with an empty OS username. -/
def envB : Env :=
  { envA with username := "" }

/-- The same environment, but the codec reports that defaults were
provided and the project-file rewrite fails. -/
def envC : Env :=
  { envA with readProjectResult := fun _ => .ok (cfgW, true),
              writeProjectResult := fun _ => some (.ioErr "disk full") }

/-- The same environment with a failing probe write. -/
def envD : Env :=
  { envA with writeResult := fun _ => some (.ioErr "write denied") }

/-- The same environment with a failing probe-file removal. -/
def envE : Env :=
  { envA with removeResult := fun _ => some (.ioErr "unlink failed") }

/-- A filesystem holding just the example project file `/p/proj.rproj`. -/
def fs0 : Fs :=
  { files := [["p", "proj.rproj"]], dirs := [] }

/-- A context with an active project, as left by a successful startup on
the example project. -/
def ctxP : ProjectContext :=
  { file_ := ["p", "proj.rproj"], directory_ := ["p"],
    scratchPath_ := ["p", ".Rproj.user", "alice", "ctx1"], config_ := cfgW,
    hasFileMonitor_ := true, defaultEncoding_ := "" }

/-! ### Helper lemmas about the filesystem model -/

theorem ensureDirectory_of_mem (env : Env) (fs : Fs) (p : FPath)
    (h : p ∈ fs.dirs) : ensureDirectory env fs p = (none, fs) := by
  simp [ensureDirectory, h]

theorem ensureDirectory_ok_mem (env : Env) (fs fs1 : Fs) (p : FPath)
    (h : ensureDirectory env fs p = (none, fs1)) : p ∈ fs1.dirs := by
  unfold ensureDirectory at h
  by_cases hm : p ∈ fs.dirs
  · simp only [if_pos hm, Prod.mk.injEq] at h
    exact h.2 ▸ hm
  · simp only [if_neg hm] at h
    cases hc : env.createDirResult p with
    | some e => rw [hc] at h; simp at h
    | none =>
      rw [hc] at h
      simp only [Prod.mk.injEq] at h
      rw [← h.2]
      exact List.mem_cons_self _ _

theorem ensureDirectory_mono (env : Env) (fs fs1 : Fs) (p : FPath)
    (r : Option Err) (h : ensureDirectory env fs p = (r, fs1)) :
    ∀ q ∈ fs.dirs, q ∈ fs1.dirs := by
  intro q hq
  unfold ensureDirectory at h
  by_cases hm : p ∈ fs.dirs
  · simp only [if_pos hm, Prod.mk.injEq] at h
    exact h.2 ▸ hq
  · simp only [if_neg hm] at h
    cases hc : env.createDirResult p with
    | some e =>
      rw [hc] at h
      simp only [Prod.mk.injEq] at h
      exact h.2 ▸ hq
    | none =>
      rw [hc] at h
      simp only [Prod.mk.injEq] at h
      rw [← h.2]
      exact List.mem_cons_of_mem _ hq

theorem ensureProjectUserDir_of_mem (env : Env) (fs : Fs) (pud : FPath)
    (h : pud ∈ fs.dirs) : ensureProjectUserDir env fs pud = (none, fs, []) := by
  simp [ensureProjectUserDir, h]

theorem ensureProjectUserDir_ok (env : Env) (fs fs1 : Fs) (pud : FPath)
    (tr : List FsAction) (h : ensureProjectUserDir env fs pud = (none, fs1, tr)) :
    pud ∈ fs1.dirs ∧ ∀ q ∈ fs.dirs, q ∈ fs1.dirs := by
  unfold ensureProjectUserDir at h
  by_cases hm : pud ∈ fs.dirs
  · simp only [if_pos hm, Prod.mk.injEq] at h
    exact ⟨h.2.1 ▸ hm, fun q hq => h.2.1 ▸ hq⟩
  · simp only [if_neg hm] at h
    cases he : ensureDirectory env fs pud with
    | mk r fsx =>
      rw [he] at h
      cases r with
      | some e => simp at h
      | none =>
        by_cases hw : env.win32
        · simp only [if_pos hw] at h
          cases hh : env.makeFileHiddenResult pud with
          | some e => rw [hh] at h; simp at h
          | none =>
            rw [hh] at h
            simp only [Prod.mk.injEq] at h
            exact ⟨h.2.1 ▸ ensureDirectory_ok_mem env fs fsx pud he,
                   fun q hq => h.2.1 ▸ ensureDirectory_mono env fs fsx pud none he q hq⟩
        · simp only [if_neg hw, Prod.mk.injEq] at h
          exact ⟨h.2.1 ▸ ensureDirectory_ok_mem env fs fsx pud he,
                 fun q hq => h.2.1 ▸ ensureDirectory_mono env fs fsx pud none he q hq⟩

theorem ensureUserLevel_of_mem (env : Env) (fs : Fs) (pud : FPath)
    (h : env.username ≠ "" → pud ++ [env.username] ∈ fs.dirs) :
    ensureUserLevel env fs pud =
      ((if env.username = "" then pud else pud ++ [env.username]), none, fs,
       if env.username = "" then [] else [.ensureDir (pud ++ [env.username])]) := by
  unfold ensureUserLevel
  by_cases hu : env.username = ""
  · simp [hu]
  · simp [hu, ensureDirectory_of_mem env fs _ (h hu)]

theorem ensureUserLevel_ok (env : Env) (fs fs1 : Fs) (pud ud : FPath)
    (tr : List FsAction) (h : ensureUserLevel env fs pud = (ud, none, fs1, tr)) :
    ud = (if env.username = "" then pud else pud ++ [env.username]) ∧
    (env.username ≠ "" → ud ∈ fs1.dirs) ∧ ∀ q ∈ fs.dirs, q ∈ fs1.dirs := by
  unfold ensureUserLevel at h
  by_cases hu : env.username = ""
  · simp only [if_pos hu, Prod.mk.injEq] at h
    refine ⟨by simp [hu, h.1], fun hc => absurd hu hc, fun q hq => h.2.2.1 ▸ hq⟩
  · simp only [if_neg hu] at h
    cases he : ensureDirectory env fs (pud ++ [env.username]) with
    | mk r fsx =>
      rw [he] at h
      simp only [Prod.mk.injEq] at h
      obtain ⟨hud, hr, hfs, -⟩ := h
      subst hud
      cases r with
      | some e => exact absurd hr.symm (by simp)
      | none =>
        refine ⟨by simp [hu], fun _ => hfs ▸ ensureDirectory_ok_mem env fs fsx _ he,
                fun q hq => hfs ▸ ensureDirectory_mono env fs fsx _ none he q hq⟩

theorem ensureContextLevel_of_mem (env : Env) (fs : Fs) (ud : FPath)
    (h : ud ++ [env.contextId] ∈ fs.dirs) :
    ensureContextLevel env fs ud =
      (.ok (ud ++ [env.contextId]), fs, [.ensureDir (ud ++ [env.contextId])]) := by
  simp [ensureContextLevel, ensureDirectory_of_mem env fs _ h]

theorem ensureContextLevel_ok (env : Env) (fs fs1 : Fs) (ud sp : FPath)
    (tr : List FsAction) (h : ensureContextLevel env fs ud = (.ok sp, fs1, tr)) :
    sp = ud ++ [env.contextId] ∧ sp ∈ fs1.dirs ∧ ∀ q ∈ fs.dirs, q ∈ fs1.dirs := by
  unfold ensureContextLevel at h
  dsimp only at h
  cases he : ensureDirectory env fs (ud ++ [env.contextId]) with
  | mk r fsx =>
    rw [he] at h
    cases r with
    | some e => simp at h
    | none =>
      simp only [Except.ok.injEq, Prod.mk.injEq] at h
      obtain ⟨hsp, hfs, -⟩ := h
      subst hsp
      exact ⟨rfl, hfs ▸ ensureDirectory_ok_mem env fs fsx _ he,
             fun q hq => hfs ▸ ensureDirectory_mono env fs fsx _ none he q hq⟩

theorem computeScratchPath_ok (env : Env) (fs fs1 : Fs) (pf sp : FPath)
    (tr : List FsAction) (h : computeScratchPath env fs pf = (.ok sp, fs1, tr)) :
    sp = (if env.username = "" then pf.dropLast ++ [".Rproj.user"]
          else pf.dropLast ++ [".Rproj.user"] ++ [env.username]) ++ [env.contextId] ∧
    pf.dropLast ++ [".Rproj.user"] ∈ fs1.dirs ∧
    (env.username ≠ "" → pf.dropLast ++ [".Rproj.user"] ++ [env.username] ∈ fs1.dirs) ∧
    sp ∈ fs1.dirs := by
  unfold computeScratchPath at h
  dsimp only at h
  rcases h1 : ensureProjectUserDir env fs (pf.dropLast ++ [".Rproj.user"]) with ⟨r1, fsa, tra⟩
  rw [h1] at h
  cases r1 with
  | some e => simp at h
  | none =>
    dsimp only at h
    obtain ⟨hpudA, monoA⟩ := ensureProjectUserDir_ok env fs fsa _ tra h1
    rcases h2 : ensureUserLevel env fsa (pf.dropLast ++ [".Rproj.user"]) with ⟨ud, r2, fsb, trb⟩
    rw [h2] at h
    cases r2 with
    | some e => simp at h
    | none =>
      dsimp only at h
      obtain ⟨hudEq, hudMem, monoB⟩ := ensureUserLevel_ok env fsa fsb _ ud trb h2
      rcases h3 : ensureContextLevel env fsb ud with ⟨r3, fsc, trc⟩
      rw [h3] at h
      dsimp only at h
      cases r3 with
      | error e => simp at h
      | ok sp' =>
        obtain ⟨hspEq, hspMem, monoC⟩ := ensureContextLevel_ok env fsb fsc ud sp' trc h3
        simp only [Except.ok.injEq, Prod.mk.injEq] at h
        obtain ⟨hsp, hfs, -⟩ := h
        subst hsp
        subst hfs
        refine ⟨by rw [hspEq, hudEq], monoC _ (monoB _ hpudA), ?_, hspMem⟩
        intro hu
        have h4 := hudMem hu
        rw [hudEq, if_neg hu] at h4
        exact monoC _ h4

theorem computeScratchPath_second_run (env : Env) (fs1 : Fs) (pf sp : FPath)
    (hpud : pf.dropLast ++ [".Rproj.user"] ∈ fs1.dirs)
    (hud : env.username ≠ "" → pf.dropLast ++ [".Rproj.user"] ++ [env.username] ∈ fs1.dirs)
    (hsp : sp = (if env.username = "" then pf.dropLast ++ [".Rproj.user"]
                 else pf.dropLast ++ [".Rproj.user"] ++ [env.username]) ++ [env.contextId])
    (hspmem : sp ∈ fs1.dirs) :
    (computeScratchPath env fs1 pf).1 = .ok sp ∧ (computeScratchPath env fs1 pf).2.1 = fs1 := by
  unfold computeScratchPath
  dsimp only
  rw [ensureProjectUserDir_of_mem env fs1 _ hpud]
  dsimp only
  rw [ensureUserLevel_of_mem env fs1 _ hud]
  dsimp only
  by_cases hu : env.username = ""
  · rw [if_pos hu]
    rw [if_pos hu] at hsp
    rw [ensureContextLevel_of_mem env fs1 _ (hsp ▸ hspmem)]
    simp [hsp]
  · rw [if_neg hu]
    rw [if_neg hu] at hsp
    rw [ensureContextLevel_of_mem env fs1 _ (hsp ▸ hspmem)]
    simp [hsp]

theorem startup_ok_spec (env : Env) (fs : Fs) (ctx : ProjectContext) (pf : FPath)
    (h : (ctx.startup env fs pf).result = .ok ()) :
    ∃ sp cfg pd fs1 tr1 log1 fs2 tr2,
      canWriteToProjectDir env fs pf.dropLast = (true, fs1, tr1, log1) ∧
      computeScratchPath env fs1 pf = (.ok sp, fs2, tr2) ∧
      env.readProjectResult pf = .ok (cfg, pd) ∧
      (ctx.startup env fs pf).ctx =
        { ctx with file_ := pf, directory_ := pf.dropLast, scratchPath_ := sp,
                   config_ := cfg, hasFileMonitor_ := true } ∧
      (ctx.startup env fs pf).trace =
        tr1 ++ tr2 ++ [.readProject pf] ++ (if pd then [.writeProject pf] else []) ∧
      (pd = true → ∀ e, env.writeProjectResult pf = some e →
         e ∈ (ctx.startup env fs pf).log) := by
  by_cases hf : pf ∈ fs.files
  · rcases hcw : canWriteToProjectDir env fs pf.dropLast with ⟨b, fs1, tr1, log1⟩
    cases b
    · simp [ProjectContext.startup, hf, hcw] at h
    · rcases hsp : computeScratchPath env fs1 pf with ⟨r, fs2, tr2⟩
      cases r with
      | error e => simp [ProjectContext.startup, hf, hcw, hsp] at h
      | ok sp =>
        cases hrd : env.readProjectResult pf with
        | error em =>
          rcases em with ⟨e, msg⟩
          simp [ProjectContext.startup, hf, hcw, hsp, hrd] at h
        | ok cp =>
          rcases cp with ⟨cfg, pd⟩
          cases pd
          · refine ⟨sp, cfg, false, fs1, tr1, log1, fs2, tr2, rfl, hsp, rfl, ?_, ?_, by simp⟩
            · simp [ProjectContext.startup, hf, hcw, hsp, hrd]
            · simp [ProjectContext.startup, hf, hcw, hsp, hrd]
          · refine ⟨sp, cfg, true, fs1, tr1, log1, fs2, tr2, rfl, hsp, rfl, ?_, ?_, ?_⟩
            · cases hw : env.writeProjectResult pf <;>
                simp [ProjectContext.startup, hf, hcw, hsp, hrd, hw]
            · cases hw : env.writeProjectResult pf <;>
                simp [ProjectContext.startup, hf, hcw, hsp, hrd, hw]
            · intro _ e hw
              simp [ProjectContext.startup, hf, hcw, hsp, hrd, hw]
  · simp [ProjectContext.startup, hf] at h

theorem startup_error_ctx (env : Env) (fs : Fs) (ctx : ProjectContext) (pf : FPath)
    (e : Err) (h : (ctx.startup env fs pf).result = .error e) :
    (ctx.startup env fs pf).ctx = ctx := by
  by_cases hf : pf ∈ fs.files
  · rcases hcw : canWriteToProjectDir env fs pf.dropLast with ⟨b, fs1, tr1, log1⟩
    cases b
    · simp [ProjectContext.startup, hf, hcw]
    · rcases hsp : computeScratchPath env fs1 pf with ⟨r, fs2, tr2⟩
      cases r with
      | error e2 => simp [ProjectContext.startup, hf, hcw, hsp]
      | ok sp =>
        cases hrd : env.readProjectResult pf with
        | error em =>
          rcases em with ⟨e2, msg⟩
          simp [ProjectContext.startup, hf, hcw, hsp, hrd]
        | ok cp =>
          rcases cp with ⟨cfg, pd⟩
          cases pd
          · simp [ProjectContext.startup, hf, hcw, hsp, hrd] at h
          · cases hw : env.writeProjectResult pf <;>
              simp [ProjectContext.startup, hf, hcw, hsp, hrd, hw] at h
  · simp [ProjectContext.startup, hf]

theorem canWriteToProjectDir_trace_shape (env : Env) (fs : Fs) (d : FPath) :
    ∀ a ∈ (canWriteToProjectDir env fs d).2.2.1,
      a = .probeWrite (d ++ [env.uuid]) ∨ a = .probeRemove (d ++ [env.uuid]) := by
  intro a ha
  rcases hw : writeStringToFile env fs (d ++ [env.uuid]) with ⟨r, fs1⟩
  cases r with
  | some e =>
    simp [canWriteToProjectDir, hw] at ha
    exact Or.inl ha
  | none =>
    rcases hr : removeIfExists env fs1 (d ++ [env.uuid]) with ⟨r2, fs2⟩
    cases r2 <;> simp [canWriteToProjectDir, hw, hr] at ha <;> tauto

theorem ensureProjectUserDir_trace (env : Env) (fs : Fs) (pud : FPath) :
    ∀ a ∈ (ensureProjectUserDir env fs pud).2.2,
      a = .ensureDir pud ∨ a = .makeHidden pud := by
  intro a ha
  by_cases hm : pud ∈ fs.dirs
  · simp [ensureProjectUserDir, hm] at ha
  · rcases he : ensureDirectory env fs pud with ⟨r, fs1⟩
    cases r with
    | some e =>
      simp [ensureProjectUserDir, hm, he] at ha
      exact Or.inl ha
    | none =>
      by_cases hwin : env.win32
      · cases hh : env.makeFileHiddenResult pud <;>
          simp [ensureProjectUserDir, hm, he, hwin, hh] at ha <;> tauto
      · simp [ensureProjectUserDir, hm, he, hwin] at ha
        exact Or.inl ha

theorem ensureUserLevel_trace (env : Env) (fs : Fs) (pud : FPath) :
    ∀ a ∈ (ensureUserLevel env fs pud).2.2.2,
      a = .ensureDir (pud ++ [env.username]) := by
  intro a ha
  by_cases hu : env.username = ""
  · simp [ensureUserLevel, hu] at ha
  · rcases he : ensureDirectory env fs (pud ++ [env.username]) with ⟨r, fs1⟩
    simp [ensureUserLevel, hu, he] at ha
    exact ha

theorem ensureContextLevel_trace (env : Env) (fs : Fs) (ud : FPath) :
    ∀ a ∈ (ensureContextLevel env fs ud).2.2,
      a = .ensureDir (ud ++ [env.contextId]) := by
  intro a ha
  rcases he : ensureDirectory env fs (ud ++ [env.contextId]) with ⟨r, fs1⟩
  cases r <;> simp [ensureContextLevel, he] at ha <;> exact ha

theorem computeScratchPath_trace (env : Env) (fs : Fs) (pf : FPath) :
    ∀ a ∈ (computeScratchPath env fs pf).2.2,
      (∃ p, a = .ensureDir p) ∨ ∃ p, a = .makeHidden p := by
  intro a ha
  rcases h1 : ensureProjectUserDir env fs (pf.dropLast ++ [".Rproj.user"]) with ⟨r1, fsa, tra⟩
  have htra : ∀ b ∈ tra, (∃ p, b = FsAction.ensureDir p) ∨ ∃ p, b = FsAction.makeHidden p := by
    intro b hb
    rcases ensureProjectUserDir_trace env fs _ b (by rw [h1]; exact hb) with h | h
    · exact Or.inl ⟨_, h⟩
    · exact Or.inr ⟨_, h⟩
  cases r1 with
  | some e =>
    simp only [computeScratchPath, h1] at ha
    exact htra a ha
  | none =>
    rcases h2 : ensureUserLevel env fsa (pf.dropLast ++ [".Rproj.user"]) with ⟨ud, r2, fsb, trb⟩
    have htrb : ∀ b ∈ trb, ∃ p, b = FsAction.ensureDir p := by
      intro b hb
      exact ⟨_, ensureUserLevel_trace env fsa _ b (by rw [h2]; exact hb)⟩
    cases r2 with
    | some e =>
      simp only [computeScratchPath, h1, h2] at ha
      rcases List.mem_append.mp ha with hm | hm
      · exact htra a hm
      · exact Or.inl (htrb a hm)
    | none =>
      rcases h3 : ensureContextLevel env fsb ud with ⟨r3, fsc, trc⟩
      have htrc : ∀ b ∈ trc, ∃ p, b = FsAction.ensureDir p := by
        intro b hb
        exact ⟨_, ensureContextLevel_trace env fsb _ b (by rw [h3]; exact hb)⟩
      simp only [computeScratchPath, h1, h2, h3] at ha
      rcases List.mem_append.mp ha with hm | hm
      · rcases List.mem_append.mp hm with hm2 | hm2
        · exact htra a hm2
        · exact Or.inl (htrb a hm2)
      · exact Or.inl (htrc a hm)

theorem computeScratchPath_count_writeProject (env : Env) (fs : Fs) (pf q : FPath) :
    (computeScratchPath env fs pf).2.2.count (FsAction.writeProject q) = 0 := by
  rw [List.count_eq_zero]
  intro hmem
  rcases computeScratchPath_trace env fs pf _ hmem with ⟨p, hp⟩ | ⟨p, hp⟩ <;> simp at hp

theorem canWriteToProjectDir_count_writeProject (env : Env) (fs : Fs) (d q : FPath) :
    (canWriteToProjectDir env fs d).2.2.1.count (FsAction.writeProject q) = 0 := by
  rw [List.count_eq_zero]
  intro hmem
  rcases canWriteToProjectDir_trace_shape env fs d _ hmem with hp | hp <;> simp at hp

theorem pathIsWithin_refl (p : FPath) : pathIsWithin p p = true := by
  simp [pathIsWithin, List.isPrefixOf_iff_prefix]

theorem pathIsWithin_eq_false (dir base : FPath) (h : ¬ base <+: dir) :
    pathIsWithin dir base = false := by
  rw [Bool.eq_false_iff]
  intro hc
  exact h (List.isPrefixOf_iff_prefix.mp (by simpa [pathIsWithin] using hc))

theorem foldl_monitor_preserved (es : List MonitorEvent) (c : ProjectContext)
    (h : ∀ e ∈ es, e ≠ MonitorEvent.registrationError ∧ e ≠ MonitorEvent.unregistered) :
    (es.foldl applyMonitorEvent c).file_ = c.file_ ∧
    (es.foldl applyMonitorEvent c).directory_ = c.directory_ ∧
    (c.hasFileMonitor_ = true → (es.foldl applyMonitorEvent c).hasFileMonitor_ = true) := by
  induction es generalizing c with
  | nil => simp
  | cons e es ih =>
    have he := h e (List.mem_cons_self _ _)
    have hrest : ∀ x ∈ es, x ≠ MonitorEvent.registrationError ∧ x ≠ MonitorEvent.unregistered :=
      fun x hx => h x (List.mem_cons_of_mem _ hx)
    obtain ⟨hfile, hdir, hmon⟩ := ih (applyMonitorEvent c e) hrest
    cases e with
    | registered =>
      refine ⟨hfile, hdir, fun _ => hmon ?_⟩
      simp [applyMonitorEvent, fileMonitorRegistered]
    | registrationError => exact absurd rfl he.1
    | monitoringError => exact ⟨hfile, hdir, fun hc => hmon (by simpa [applyMonitorEvent, fileMonitorMonitoringError] using hc)⟩
    | filesChanged => exact ⟨hfile, hdir, fun hc => hmon (by simpa [applyMonitorEvent, fileMonitorFilesChanged] using hc)⟩
    | unregistered => exact absurd rfl he.2

/-! ### The claims -/

/-- C1: for every configured encoding name, ProjectContext::initialize
resolves the encoding as follows: a normalize call succeeding with a
non-empty string stores that string verbatim as the default encoding; a
call succeeding with the empty string stores the "UTF-8" fallback and
enqueues exactly one non-severe warning event whose message names the
originally configured encoding; a failing call is returned as the error
of initialize, with no warning event and no fallback applied. -/
theorem encoding_resolution (norm : String → Except Err String)
    (ctx : ProjectContext) (hp : ctx.hasProject = true) :
    (∀ s, s ≠ "" → norm ctx.config_.encoding = .ok s →
       ctx.postStartupInit norm = (.ok (), { ctx with defaultEncoding_ := s }, [], true)) ∧
    (norm ctx.config_.encoding = .ok "" →
       ctx.postStartupInit norm =
         (.ok (), { ctx with defaultEncoding_ := "UTF-8" },
          [{ severe := false, message := encodingWarningMessage ctx.config_.encoding }],
          true)) ∧
    (∀ e, norm ctx.config_.encoding = .error e →
       ctx.postStartupInit norm = (.error e, ctx, [], false)) ∧
    (∃ pre post, encodingWarningMessage ctx.config_.encoding =
       pre ++ ctx.config_.encoding ++ post) := by
  refine ⟨?_, ?_, ?_, ?_⟩
  · intro s hs hn
    simp [ProjectContext.postStartupInit, hp, hn, String.isEmpty_iff, hs]
  · intro hn
    simp [ProjectContext.postStartupInit, hp, hn, String.isEmpty_iff]
  · intro e hn
    simp [ProjectContext.postStartupInit, hp, hn]
  · exact ⟨"Project text encoding \x27", "\x27 not available (using UTF-8). You can specify an alternate text encoding via Project Options.", rfl⟩

theorem encoding_resolution_witness :
    ctxP.hasProject = true ∧ "ISO-8859-1" ≠ "" ∧
    ctxP.postStartupInit (fun _ => .ok "ISO-8859-1") =
      (.ok (), { ctxP with defaultEncoding_ := "ISO-8859-1" }, [], true) :=
  ⟨by decide, by decide,
   (encoding_resolution (fun _ => .ok "ISO-8859-1") ctxP (by decide)).1
     "ISO-8859-1" (by decide) rfl⟩

/-- C2: when the project file does not exist, startup fails with a
not-found error, sets the user error message, and performs no filesystem
action at all (in particular no scratch-directory creation), leaving
filesystem and context untouched. -/
theorem startup_missing_file (env : Env) (fs : Fs) (ctx : ProjectContext)
    (pf : FPath) (h : pf ∉ fs.files) :
    (ctx.startup env fs pf).result = .error (.pathNotFound pf) ∧
    (ctx.startup env fs pf).userErrMsg = some "the project file does not exist" ∧
    (ctx.startup env fs pf).trace = [] ∧
    (ctx.startup env fs pf).fs = fs ∧
    (ctx.startup env fs pf).ctx = ctx := by
  simp [ProjectContext.startup, h]

theorem startup_missing_file_witness :
    (["q", "missing.rproj"] : FPath) ∉ fs0.files ∧
    ((ProjectContext.empty).startup envA fs0 ["q", "missing.rproj"]).result =
      .error (.pathNotFound ["q", "missing.rproj"]) ∧
    ((ProjectContext.empty).startup envA fs0 ["q", "missing.rproj"]).trace = [] :=
  ⟨by decide,
   (startup_missing_file envA fs0 ProjectContext.empty ["q", "missing.rproj"] (by decide)).1,
   (startup_missing_file envA fs0 ProjectContext.empty ["q", "missing.rproj"] (by decide)).2.2.1⟩

/-- C3: when the project file exists but the parent-directory writability
probe fails (the probe write errors), startup fails with permission-denied,
sets the user error message, and its trace holds only the probe write — no
scratch-path computation, no config load, no rewrite — leaving filesystem
and context untouched. -/
theorem startup_unwritable_dir (env : Env) (fs : Fs) (ctx : ProjectContext)
    (pf : FPath) (e : Err) (h1 : pf ∈ fs.files)
    (h2 : env.writeResult (pf.dropLast ++ [env.uuid]) = some e) :
    (ctx.startup env fs pf).result = .error .permissionDenied ∧
    (ctx.startup env fs pf).userErrMsg = some "the project directory is not writeable" ∧
    (ctx.startup env fs pf).trace = [.probeWrite (pf.dropLast ++ [env.uuid])] ∧
    (ctx.startup env fs pf).fs = fs ∧
    (ctx.startup env fs pf).ctx = ctx := by
  simp [ProjectContext.startup, h1, canWriteToProjectDir, writeStringToFile, h2]

theorem startup_unwritable_dir_witness :
    (["p", "proj.rproj"] : FPath) ∈ fs0.files ∧
    envD.writeResult ((["p", "proj.rproj"] : FPath).dropLast ++ [envD.uuid]) =
      some (.ioErr "write denied") ∧
    ((ProjectContext.empty).startup envD fs0 ["p", "proj.rproj"]).result =
      .error .permissionDenied ∧
    ((ProjectContext.empty).startup envD fs0 ["p", "proj.rproj"]).trace =
      [.probeWrite ["p", "u1"]] :=
  ⟨by decide, by decide,
   (startup_unwritable_dir envD fs0 ProjectContext.empty ["p", "proj.rproj"]
      (.ioErr "write denied") (by decide) (by decide)).1,
   (startup_unwritable_dir envD fs0 ProjectContext.empty ["p", "proj.rproj"]
      (.ioErr "write denied") (by decide) (by decide)).2.2.1⟩

/-- C4: isMonitoringDirectory dir is true exactly when a project is
active, the monitor flag is on, and dir equals the project directory or is
nested beneath it; any dir that is not at-or-below the project directory —
in particular any strict ancestor, and any sibling — yields false. -/
theorem isMonitoringDirectory_characterization (ctx : ProjectContext) (dir : FPath) :
    (isMonitoringDirectory ctx dir = true ↔
       ctx.hasProject = true ∧ ctx.hasFileMonitor = true ∧ ctx.directory_ <+: dir) ∧
    (¬ ctx.directory_ <+: dir → isMonitoringDirectory ctx dir = false) ∧
    (dir ≠ ctx.directory_ → dir <+: ctx.directory_ →
       isMonitoringDirectory ctx dir = false) := by
  refine ⟨?_, ?_, ?_⟩
  · simp [isMonitoringDirectory, pathIsWithin, List.isPrefixOf_iff_prefix,
          Bool.and_eq_true, and_assoc]
  · intro hnp
    simp [isMonitoringDirectory, pathIsWithin_eq_false dir ctx.directory_ hnp]
  · intro hne hanc
    have hnp : ¬ ctx.directory_ <+: dir :=
      fun hw => hne (hanc.eq_of_length_le hw.length_le)
    simp [isMonitoringDirectory, pathIsWithin_eq_false dir ctx.directory_ hnp]

theorem isMonitoringDirectory_characterization_witness :
    isMonitoringDirectory ctxP ["p", "src"] = true ∧
    isMonitoringDirectory ctxP ["q"] = false ∧
    isMonitoringDirectory ctxP [] = false :=
  ⟨(isMonitoringDirectory_characterization ctxP ["p", "src"]).1.mpr
     ⟨by decide, by decide, by decide⟩,
   (isMonitoringDirectory_characterization ctxP ["q"]).2.1 (by decide),
   (isMonitoringDirectory_characterization ctxP []).2.2 (by decide) (by decide)⟩

/-- C10: the writability probe classifies a directory as writable whenever
the probe write succeeds, even when removal of the probe file then fails:
the removal error is only logged and the probe file stays on disk. -/
theorem canWriteToProjectDir_tolerates_remove_failure (env : Env) (fs : Fs)
    (d : FPath) (h : env.writeResult (d ++ [env.uuid]) = none) :
    (canWriteToProjectDir env fs d).1 = true ∧
    (∀ e, env.removeResult (d ++ [env.uuid]) = some e →
       (canWriteToProjectDir env fs d).2.2.2 = [e] ∧
       (d ++ [env.uuid]) ∈ (canWriteToProjectDir env fs d).2.1.files) := by
  constructor
  · cases hr : env.removeResult (d ++ [env.uuid]) <;>
      simp [canWriteToProjectDir, writeStringToFile, removeIfExists, h, hr]
  · intro e hr
    refine ⟨by simp [canWriteToProjectDir, writeStringToFile, removeIfExists, h, hr], ?_⟩
    simp only [canWriteToProjectDir, writeStringToFile, removeIfExists, h, hr]
    by_cases hm : (d ++ [env.uuid]) ∈ fs.files <;> simp [hm]

theorem canWriteToProjectDir_tolerates_remove_failure_witness :
    envE.writeResult ((["p"] : FPath) ++ [envE.uuid]) = none ∧
    envE.removeResult ((["p"] : FPath) ++ [envE.uuid]) = some (.ioErr "unlink failed") ∧
    (canWriteToProjectDir envE fs0 ["p"]).1 = true ∧
    (canWriteToProjectDir envE fs0 ["p"]).2.2.2 = [.ioErr "unlink failed"] ∧
    (["p", "u1"] : FPath) ∈ (canWriteToProjectDir envE fs0 ["p"]).2.1.files := by
  have h := canWriteToProjectDir_tolerates_remove_failure envE fs0 ["p"] (by decide)
  exact ⟨by decide, by decide, h.1, (h.2 (.ioErr "unlink failed") (by decide)).1,
         by have h2 := (h.2 (.ioErr "unlink failed") (by decide)).2; simpa using h2⟩

/-- C5: after a successful startup the project directory is reported as
monitored (the flag is optimistically true), the report stays true across
any sequence of monitor callbacks that does not include a
registration-error or unregistration callback, and immediately after the
registration-error callback — as after the unregistration callback — it is
false for every directory. -/
theorem optimistic_monitor_flag (env : Env) (fs : Fs) (ctx : ProjectContext)
    (pf : FPath) (hne : pf ≠ [])
    (hok : (ctx.startup env fs pf).result = .ok ()) :
    isMonitoringDirectory (ctx.startup env fs pf).ctx
      ((ctx.startup env fs pf).ctx.directory_) = true ∧
    (∀ es : List MonitorEvent,
       (∀ e ∈ es, e ≠ MonitorEvent.registrationError ∧ e ≠ MonitorEvent.unregistered) →
       isMonitoringDirectory (es.foldl applyMonitorEvent (ctx.startup env fs pf).ctx)
         ((ctx.startup env fs pf).ctx.directory_) = true) ∧
    (∀ c : ProjectContext, ∀ d : FPath,
       isMonitoringDirectory (applyMonitorEvent c .registrationError) d = false ∧
       isMonitoringDirectory (applyMonitorEvent c .unregistered) d = false) := by
  obtain ⟨sp, cfg, pd, fs1, tr1, log1, fs2, tr2, -, -, -, hctx, -, -⟩ :=
    startup_ok_spec env fs ctx pf hok
  have hie : pf.isEmpty = false := by
    cases pf
    · exact absurd rfl hne
    · rfl
  refine ⟨?_, ?_, ?_⟩
  · rw [hctx]
    simp [isMonitoringDirectory, ProjectContext.hasProject, ProjectContext.hasFileMonitor,
          hie, pathIsWithin_refl]
  · intro es hes
    obtain ⟨hfile, hdir, hmon⟩ :=
      foldl_monitor_preserved es ((ctx.startup env fs pf).ctx) hes
    have hflag : ((ctx.startup env fs pf).ctx).hasFileMonitor_ = true := by
      rw [hctx]
    have hmon2 := hmon hflag
    rw [hctx] at hfile hdir hmon2
    simp [isMonitoringDirectory, ProjectContext.hasProject, ProjectContext.hasFileMonitor,
          hfile, hdir, hmon2, hctx, hie, hne, pathIsWithin_refl]
  · intro c d
    constructor <;>
      simp [isMonitoringDirectory, applyMonitorEvent, fileMonitorRegistrationError,
            fileMonitorUnregistered, ProjectContext.hasFileMonitor]

theorem optimistic_monitor_flag_witness :
    (["p", "proj.rproj"] : FPath) ≠ [] ∧
    ((ProjectContext.empty).startup envA fs0 ["p", "proj.rproj"]).result = .ok () ∧
    isMonitoringDirectory ((ProjectContext.empty).startup envA fs0 ["p", "proj.rproj"]).ctx
      (((ProjectContext.empty).startup envA fs0 ["p", "proj.rproj"]).ctx.directory_) = true :=
  ⟨by decide, by decide,
   (optimistic_monitor_flag envA fs0 ProjectContext.empty ["p", "proj.rproj"]
      (by decide) (by decide)).1⟩

/-- C6: for project file /p/proj.rproj, OS user alice and context id ctx1,
the scratch path is /p/.Rproj.user/alice/ctx1 and each missing level
(.Rproj.user sibling, then the username level, then the context-id level)
is created in that order; with an empty username the user level is
skipped. -/
theorem scratch_path_example :
    (computeScratchPath envA fs0 ["p", "proj.rproj"]).1 =
      .ok ["p", ".Rproj.user", "alice", "ctx1"] ∧
    (computeScratchPath envA fs0 ["p", "proj.rproj"]).2.2 =
      [.ensureDir ["p", ".Rproj.user"], .ensureDir ["p", ".Rproj.user", "alice"],
       .ensureDir ["p", ".Rproj.user", "alice", "ctx1"]] ∧
    (computeScratchPath envB fs0 ["p", "proj.rproj"]).1 =
      .ok ["p", ".Rproj.user", "ctx1"] ∧
    (computeScratchPath envB fs0 ["p", "proj.rproj"]).2.2 =
      [.ensureDir ["p", ".Rproj.user"], .ensureDir ["p", ".Rproj.user", "ctx1"]] := by
  decide

/-- C7: scratch-path computation is idempotent — when a run succeeds with
path sp leaving filesystem fs1, a second run on fs1 succeeds, returns the
same path sp, and changes nothing (every level already exists). -/
theorem scratch_path_idempotent (env : Env) (fs fs1 : Fs) (pf sp : FPath)
    (tr1 : List FsAction) (h : computeScratchPath env fs pf = (.ok sp, fs1, tr1)) :
    (computeScratchPath env fs1 pf).1 = .ok sp ∧
    (computeScratchPath env fs1 pf).2.1 = fs1 := by
  obtain ⟨hsp, hpud, hud, hmem⟩ := computeScratchPath_ok env fs fs1 pf sp tr1 h
  exact computeScratchPath_second_run env fs1 pf sp hpud hud hsp hmem

theorem scratch_path_idempotent_witness :
    computeScratchPath envA fs0 ["p", "proj.rproj"] =
      (.ok ["p", ".Rproj.user", "alice", "ctx1"],
       { files := [["p", "proj.rproj"]],
         dirs := [["p", ".Rproj.user", "alice", "ctx1"], ["p", ".Rproj.user", "alice"],
                  ["p", ".Rproj.user"]] },
       [.ensureDir ["p", ".Rproj.user"], .ensureDir ["p", ".Rproj.user", "alice"],
        .ensureDir ["p", ".Rproj.user", "alice", "ctx1"]]) ∧
    (computeScratchPath envA
       { files := [["p", "proj.rproj"]],
         dirs := [["p", ".Rproj.user", "alice", "ctx1"], ["p", ".Rproj.user", "alice"],
                  ["p", ".Rproj.user"]] } ["p", "proj.rproj"]).1 =
      .ok ["p", ".Rproj.user", "alice", "ctx1"] :=
  ⟨by decide,
   (scratch_path_idempotent envA fs0
      { files := [["p", "proj.rproj"]],
        dirs := [["p", ".Rproj.user", "alice", "ctx1"], ["p", ".Rproj.user", "alice"],
                 ["p", ".Rproj.user"]] }
      ["p", "proj.rproj"] ["p", ".Rproj.user", "alice", "ctx1"]
      [.ensureDir ["p", ".Rproj.user"], .ensureDir ["p", ".Rproj.user", "alice"],
       .ensureDir ["p", ".Rproj.user", "alice", "ctx1"]] (by decide)).1⟩

/-- C9: the identity fields and the config are assigned together as the
last step of a successful startup: on success the resulting context is the
input context with file, directory, scratch path, config and the monitor
flag all set; on any failure the context is returned unchanged. -/
theorem startup_atomic_assignment (env : Env) (fs : Fs) (ctx : ProjectContext)
    (pf : FPath) :
    ((ctx.startup env fs pf).result = .ok () →
       ∃ sp cfg, (ctx.startup env fs pf).ctx =
         { ctx with file_ := pf, directory_ := pf.dropLast, scratchPath_ := sp,
                    config_ := cfg, hasFileMonitor_ := true }) ∧
    (∀ e, (ctx.startup env fs pf).result = .error e →
       (ctx.startup env fs pf).ctx = ctx) := by
  constructor
  · intro h
    obtain ⟨sp, cfg, pd, fs1, tr1, log1, fs2, tr2, -, -, -, hctx, -, -⟩ :=
      startup_ok_spec env fs ctx pf h
    exact ⟨sp, cfg, hctx⟩
  · intro e h
    exact startup_error_ctx env fs ctx pf e h

theorem startup_atomic_assignment_witness :
    ((ProjectContext.empty).startup envA fs0 ["p", "proj.rproj"]).result = .ok () ∧
    ∃ sp cfg, ((ProjectContext.empty).startup envA fs0 ["p", "proj.rproj"]).ctx =
      { ProjectContext.empty with file_ := ["p", "proj.rproj"], directory_ := ["p"],
                                  scratchPath_ := sp, config_ := cfg,
                                  hasFileMonitor_ := true } :=
  ⟨by decide,
   (startup_atomic_assignment envA fs0 ProjectContext.empty ["p", "proj.rproj"]).1
     (by decide)⟩

theorem startup_write_independent (env : Env) (w : FPath → Option Err) (fs : Fs)
    (ctx : ProjectContext) (pf : FPath) :
    (ctx.startup { env with writeProjectResult := w } fs pf).result =
      (ctx.startup env fs pf).result ∧
    (ctx.startup { env with writeProjectResult := w } fs pf).ctx =
      (ctx.startup env fs pf).ctx ∧
    (ctx.startup { env with writeProjectResult := w } fs pf).trace =
      (ctx.startup env fs pf).trace ∧
    (ctx.startup { env with writeProjectResult := w } fs pf).fs =
      (ctx.startup env fs pf).fs := by
  have hcw : canWriteToProjectDir { env with writeProjectResult := w } fs pf.dropLast =
      canWriteToProjectDir env fs pf.dropLast := rfl
  have hscr : ∀ fsx : Fs, computeScratchPath { env with writeProjectResult := w } fsx pf =
      computeScratchPath env fsx pf := fun _ => rfl
  by_cases hf : pf ∈ fs.files
  · rcases hcw2 : canWriteToProjectDir env fs pf.dropLast with ⟨b, fs1, tr1, log1⟩
    cases b
    · simp [ProjectContext.startup, hf, hcw, hcw2]
    · rcases hsp2 : computeScratchPath env fs1 pf with ⟨r, fs2, tr2⟩
      cases r with
      | error e =>
        simp [ProjectContext.startup, hf, hcw, hcw2, hscr fs1, hsp2]
      | ok sp =>
        cases hrd : env.readProjectResult pf with
        | error em =>
          rcases em with ⟨e, msg⟩
          simp [ProjectContext.startup, hf, hcw, hcw2, hscr fs1, hsp2, hrd]
        | ok cp =>
          rcases cp with ⟨cfg, pd⟩
          cases pd
          · simp [ProjectContext.startup, hf, hcw, hcw2, hscr fs1, hsp2, hrd]
          · cases hw1 : w pf <;> cases hw2 : env.writeProjectResult pf <;>
              simp [ProjectContext.startup, hf, hcw, hcw2, hscr fs1, hsp2, hrd, hw1, hw2]
  · simp [ProjectContext.startup, hf]

/-- C8: on a successful startup, if the config loader reported that
defaults were provided then exactly one rewrite of the project file is
attempted and a failing rewrite is only logged — the stored config is the
loaded one and the startup result, context, trace and filesystem do not
depend on the rewrite oracle at all; if no defaults were provided, no
rewrite is attempted. -/
theorem config_rewrite_policy (env : Env) (fs : Fs) (ctx : ProjectContext)
    (pf : FPath) :
    ((ctx.startup env fs pf).result = .ok () →
       ∃ cfg pd, env.readProjectResult pf = .ok (cfg, pd) ∧
         (ctx.startup env fs pf).ctx.config_ = cfg ∧
         (ctx.startup env fs pf).trace.count (FsAction.writeProject pf) =
           (if pd then 1 else 0) ∧
         (pd = true → ∀ e, env.writeProjectResult pf = some e →
            e ∈ (ctx.startup env fs pf).log)) ∧
    (∀ w : FPath → Option Err,
       (ctx.startup { env with writeProjectResult := w } fs pf).result =
         (ctx.startup env fs pf).result ∧
       (ctx.startup { env with writeProjectResult := w } fs pf).ctx =
         (ctx.startup env fs pf).ctx) := by
  constructor
  · intro h
    obtain ⟨sp, cfg, pd, fs1, tr1, log1, fs2, tr2, hcw, hsp, hrd, hctx, htr, hlog⟩ :=
      startup_ok_spec env fs ctx pf h
    refine ⟨cfg, pd, hrd, by rw [hctx], ?_, hlog⟩
    rw [htr]
    have h1 : tr1.count (FsAction.writeProject pf) = 0 := by
      have := canWriteToProjectDir_count_writeProject env fs pf.dropLast pf
      rwa [hcw] at this
    have h2 : tr2.count (FsAction.writeProject pf) = 0 := by
      have := computeScratchPath_count_writeProject env fs1 pf pf
      rwa [hsp] at this
    cases pd <;> simp [List.count_append, h1, h2, List.count_cons, List.count_nil]
  · intro w
    obtain ⟨h1, h2, -, -⟩ := startup_write_independent env w fs ctx pf
    exact ⟨h1, h2⟩

theorem config_rewrite_policy_witness :
    ((ProjectContext.empty).startup envC fs0 ["p", "proj.rproj"]).result = .ok () ∧
    ∃ cfg pd, envC.readProjectResult ["p", "proj.rproj"] = .ok (cfg, pd) ∧
      ((ProjectContext.empty).startup envC fs0 ["p", "proj.rproj"]).ctx.config_ = cfg ∧
      ((ProjectContext.empty).startup envC fs0 ["p", "proj.rproj"]).trace.count
          (FsAction.writeProject ["p", "proj.rproj"]) = (if pd then 1 else 0) ∧
      (pd = true → ∀ e, envC.writeProjectResult ["p", "proj.rproj"] = some e →
         e ∈ ((ProjectContext.empty).startup envC fs0 ["p", "proj.rproj"]).log) :=
  ⟨by decide,
   (config_rewrite_policy envC fs0 ProjectContext.empty ["p", "proj.rproj"]).1
     (by decide)⟩
